import Mathlib

/-!
Shallow embedding of `src/submissions/python_task_1.py` (pandas data-wrangling
utilities) and proofs about it.

Modelling conventions:
* numeric cell values (pandas float64) are modelled as `ℚ`;
* row/route/group identifiers are modelled as `ℤ`;
* a timestamp is modelled as an integer number of seconds, a calendar date as
  an integer number of days since an (arbitrary) epoch Monday, so that the
  weekday index of a date `d` (Monday = 0 .. Sunday = 6) is `d % 7`;
* operations that raise a Python exception on some inputs are modelled with
  `Option`, returning `none` exactly on the inputs where the Python code
  raises.
-/

namespace Task1

/-- Sequencing of a list of optional values (`optList`): `some` of the list of
values when all are present, `none` as soon as one is missing.  Used to model
column computations that can raise. -/
def optList {α : Type} : List (Option α) → Option (List α)
  | [] => some []
  | none :: _ => none
  | some a :: rest => (optList rest).map (fun l => a :: l)

/-! ### multiply_matrix (python_task_1.py lines 65-79)

The Python body is

  modified_matrix = matrix.copy()
  modified_matrix[modified_matrix > 20] *= 0.75
  modified_matrix[modified_matrix <= 20] *= 1.25
  modified_matrix = modified_matrix.round(1)

The second mask is evaluated on the matrix already modified by the first
line; `scaleStep1`/`scaleStep2` model the two in-place masked updates in
order, elementwise. -/

/-- First masked update: cells currently greater than 20 are multiplied by
0.75. -/
def scaleStep1 (v : ℚ) : ℚ := if v > 20 then v * (3 / 4) else v

/-- Second masked update: cells currently at most 20 (after the first
update) are multiplied by 1.25. -/
def scaleStep2 (v : ℚ) : ℚ := if v ≤ 20 then v * (5 / 4) else v

/-- Round-half-to-even to an integer, as `numpy.round` does. -/
def rhe (q : ℚ) : ℤ :=
  if q - ⌊q⌋ < 1 / 2 then ⌊q⌋
  else if 1 / 2 < q - ⌊q⌋ then ⌊q⌋ + 1
  else if ⌊q⌋ % 2 = 0 then ⌊q⌋ else ⌊q⌋ + 1

/-- Rounding as in `DataFrame.round(1)`: half-to-even at one decimal place. -/
def roundHalfEven1 (q : ℚ) : ℚ := ((rhe (q * 10) : ℤ) : ℚ) / 10

/-- Model of `multiply_matrix`: both masked updates followed by rounding the whole
matrix to one decimal. -/
def multiply_matrix (m : List (List ℚ)) : List (List ℚ) :=
  m.map (fun row => row.map (fun v => roundHalfEven1 (scaleStep2 (scaleStep1 v))))

/-! ### generate_car_matrix (python_task_1.py lines 5-18)

  matrix = df.pivot(index=id_1, columns=id_2, values=car).fillna(0)
  matrix.values[np.arange(matrix.shape[0]), np.arange(matrix.shape[0])] = 0

`pivot` sorts the distinct `id_1` values into the row index and the distinct
`id_2` values into the column index, and raises `ValueError` when some
`(id_1, id_2)` pair occurs twice (modelled by `none`).  The second line
writes 0 at the positional coordinates `(i, i)` for `i` below the row count;
it raises `IndexError` when there are more rows than columns (also `none`). -/

/-- One record of the vehicle-count table, restricted to the columns
`generate_car_matrix` reads. -/
structure CarRow where
  id1 : ℤ
  id2 : ℤ
  car : ℚ
deriving DecidableEq

/-- Result of the pivot: row labels, column labels and the cell grid. -/
structure PivotMatrix where
  rows : List ℤ
  cols : List ℤ
  data : List (List ℚ)
deriving DecidableEq

/-- Sorted list of the distinct values of a label column, as a pandas pivot
produces for its index and columns. -/
def sortedIds (l : List ℤ) : List ℤ := List.insertionSort (· ≤ ·) l.dedup

/-- The `car` value of the (unique) record with the given pair of labels. -/
def lookupCar (df : List CarRow) (r c : ℤ) : Option ℚ :=
  (df.find? (fun x => x.id1 == r && x.id2 == c)).map (fun x => x.car)

/-- Positional diagonal write `matrix.values[arange(n), arange(n)] = 0`:
starting from row index `i`,
write 0 at positional column `i` of each successive row. -/
def zeroDiagFrom : ℕ → List (List ℚ) → List (List ℚ)
  | _, [] => []
  | i, row :: rest => row.set i 0 :: zeroDiagFrom (i + 1) rest

/-- Model of `generate_car_matrix`: pivot with 0 fill, then positional diagonal
zeroing.  `none` models the two raising branches described above. -/
def generate_car_matrix (df : List CarRow) : Option PivotMatrix :=
  if (df.map (fun r => (r.id1, r.id2))).Nodup then
    let rows := sortedIds (df.map (fun r => r.id1))
    let cols := sortedIds (df.map (fun r => r.id2))
    if rows.length ≤ cols.length then
      some ⟨rows, cols,
        zeroDiagFrom 0 (rows.map (fun r => cols.map (fun c => (lookupCar df r c).getD 0)))⟩
    else none
  else none

/-! ### get_type_count (python_task_1.py lines 20-33)

  df[car_type] = pd.cut(df[car], bins=[-np.inf, 15, 25, np.inf],
                        labels=[low, medium, high], right=False)
  car_type_counts = df[car_type].value_counts().to_dict()
  sorted_car_type_counts = dict(sorted(car_type_counts.items()))

With `right=False` the bins are `[-inf, 15)`, `[15, 25)`, `[25, inf)`.
`value_counts` on a categorical column reports every category (including
empty ones), and `sorted` orders the dictionary items by their string key
using the lexicographic string comparison of Python, modelled by `pyStrLe`. -/

/-- Lexicographic comparison of character lists, as Python compares `str`
values code point by code point. -/
def charListLt : List Char → List Char → Bool
  | _, [] => false
  | [], _ :: _ => true
  | a :: as, b :: bs =>
    if a < b then true else if b < a then false else charListLt as bs

/-- Comparison of strings as Python compares them with `<=`. -/
def pyStrLe (s t : String) : Bool := s.data == t.data || charListLt s.data t.data

/-- The category `pd.cut` assigns to a `car` value. -/
def carType (v : ℚ) : String := if v < 15 then "low" else if v < 25 then "medium" else "high"

/-- Number of rows falling in the named category. -/
def labelCount (cars : List ℚ) (lab : String) : ℕ :=
  ((cars.map carType).filter (fun s => s == lab)).length

/-- Model of `get_type_count` on the numeric `car` column: category counts (one entry
per category of the cut, empty or not), sorted by key. -/
def get_type_count (cars : List ℚ) : List (String × ℕ) :=
  List.insertionSort (fun a b => pyStrLe a.1 b.1 = true)
    (["low", "medium", "high"].map (fun lab => (lab, labelCount cars lab)))

/-! ### A column-level view of the input frame, for the mutation claim

`get_type_count` receives the whole DataFrame and *assigns a new column* to
it (`df[car_type] = ...`) before counting, so the frame of the caller is
changed by the call.  To state that, the frame is modelled as an ordered
list of named columns holding numeric or categorical (string) cells. -/

/-- One cell of a DataFrame column: numeric or categorical/text. -/
inductive Val where
  | num (q : ℚ)
  | txt (s : String)
deriving DecidableEq

/-- A DataFrame as an ordered association list of named columns. -/
abbrev DFrame := List (String × List Val)

/-- Column lookup `df[name]`: the column with the given name, `none` (a `KeyError`) when
absent. -/
def getColumn (df : DFrame) (name : String) : Option (List Val) :=
  (df.find? (fun p => p.1 == name)).map (fun p => p.2)

/-- Column assignment `df[name] = c`: replace the column in place when it exists, append it
otherwise, as pandas column assignment does. -/
def setColumn (df : DFrame) (name : String) (c : List Val) : DFrame :=
  if (df.find? (fun p => p.1 == name)).isSome then
    df.map (fun p => if p.1 == name then (p.1, c) else p)
  else df ++ [(name, c)]

/-- Read a column as numeric values; `none` models the failure `pd.cut`
raises on non-numeric data. -/
def colRats (c : List Val) : Option (List ℚ) :=
  optList (c.map (fun v => match v with | .num q => some q | .txt _ => none))

/-- Model of `get_type_count` with its effect on the caller frame: the returned
counts together with the frame as the call leaves it (the `car_type`
column has been assigned). -/
def get_type_count_full (df : DFrame) : Option (List (String × ℕ) × DFrame) :=
  (getColumn df "car").bind (fun c => (colRats c).map (fun cars =>
    (get_type_count cars, setColumn df "car_type" (cars.map (fun q => Val.txt (carType q))))))

/-! ### get_bus_indexes (python_task_1.py lines 35-48)

  mean_bus = df[bus].mean()
  bus_indexes = df[df[bus] > 2 * mean_bus].index.tolist()
  sorted_bus_indexes = sorted(bus_indexes)

The default index of the frame is positional, so row identifiers are the
positions `0 .. n-1`.  `mean()` of an empty column is NaN (`none` here), and
a comparison against NaN selects no row. -/

/-- Column mean `Series.mean()`: `none` models the NaN produced on an empty column. -/
def meanQ (l : List ℚ) : Option ℚ :=
  if l.length = 0 then none else some (l.sum / l.length)

/-- Model of `get_bus_indexes` on the numeric `bus` column. -/
def get_bus_indexes (bus : List ℚ) : List ℕ :=
  (meanQ bus).elim []
    (fun m => List.insertionSort (· ≤ ·)
      ((List.range bus.length).filter (fun i => decide (2 * m < bus.getD i 0))))

/-! ### time_check (python_task_1.py lines 81-124)

One record of dataset-2 carries an `(id, id_2)` group key, weekday names
`startDay`/`endDay` and times of day `startTime`/`endTime` (here: seconds
since midnight, as produced by parsing `HH:MM:SS`).  A calendar date is an
integer count of days from an epoch Monday, so the weekday index of date
`d` is `d % 7`; `today` is the invocation date. -/

/-- One record of dataset-2, restricted to the columns `time_check` reads. -/
structure TCRow where
  id : ℤ
  id2 : ℤ
  startDay : String
  startTime : ℕ
  endDay : String
  endTime : ℕ
deriving DecidableEq

/-- The `days` dictionary of the source (line 91): weekday name to index.
`none` models the `KeyError` on any other string. -/
def days (w : String) : Option ℕ :=
  if w = "Monday" then some 0
  else if w = "Tuesday" then some 1
  else if w = "Wednesday" then some 2
  else if w = "Thursday" then some 3
  else if w = "Friday" then some 4
  else if w = "Saturday" then some 5
  else if w = "Sunday" then some 6
  else none

/-- Model of `weekday_to_date` (lines 103-105): `datetime.today() +
timedelta(days = days[weekday] - today.weekday())`, i.e. the date of the
named weekday in the Monday-to-Sunday week containing the invocation date. -/
def weekday_to_date (today : ℤ) (w : String) : Option ℤ :=
  (days w).map (fun dw : ℕ => today + ((dw : ℤ) - today % 7))

/-- Combined `startDayTime` of a record: the mapped start date combined with the
start time of day (line 110). -/
def rowStart (today : ℤ) (r : TCRow) : Option ℤ :=
  (weekday_to_date today r.startDay).map (fun d => d * 86400 + (r.startTime : ℤ))

/-- Combined `endDayTime` of a record (line 114). -/
def rowEnd (today : ℤ) (r : TCRow) : Option ℤ :=
  (weekday_to_date today r.endDay).map (fun d => d * 86400 + (r.endTime : ℤ))

/-- The sorted distinct `(id, id_2)` keys, as `groupby` on the pair
enumerates its groups. -/
def groupKeys (df : List TCRow) : List (ℤ × ℤ) :=
  List.insertionSort (fun a b => a.1 < b.1 ∨ (a.1 = b.1 ∧ a.2 ≤ b.2))
    ((df.map (fun r => (r.id, r.id2))).dedup)

/-- The records of one group. -/
def groupRows (df : List TCRow) (k : ℤ × ℤ) : List TCRow :=
  df.filter (fun r => r.id == k.1 && r.id2 == k.2)

/-- Minimum of a nonempty series, `none` on an empty one (`Series.min`). -/
def listMin : List ℤ → Option ℤ
  | [] => none
  | a :: rest => some (rest.foldl min a)

/-- Maximum of a nonempty series, `none` on an empty one (`Series.max`). -/
def listMax : List ℤ → Option ℤ
  | [] => none
  | a :: rest => some (rest.foldl max a)

/-- One row of the frame `time_check` returns: the aggregated columns
`startDayTime`, `endDayTime`, `TimeDifference` and `time_completeness`
(lines 117-120). -/
structure TCOut where
  startDayTime : ℤ
  endDayTime : ℤ
  timeDiff : ℤ
  complete : Bool
deriving DecidableEq

/-- The aggregation for one `(id, id_2)` group: minimum combined start,
maximum combined end, their difference, and the completeness flag
`TimeDifference == Timedelta(days=6, hours=23, minutes=59, seconds=59)`. -/
def groupAgg (today : ℤ) (df : List TCRow) (k : ℤ × ℤ) : Option ((ℤ × ℤ) × TCOut) :=
  (optList ((groupRows df k).map (rowStart today))).bind (fun ss =>
  (optList ((groupRows df k).map (rowEnd today))).bind (fun es =>
  (listMin ss).bind (fun mn =>
  (listMax es).map (fun mx =>
    (k, ⟨mn, mx, mx - mn, decide (mx - mn = 6 * 86400 + 23 * 3600 + 59 * 60 + 59)⟩)))))

/-- Model of `time_check`: the frame returned by the source, one aggregated row per
`(id, id_2)` group, indexed by the pair. -/
def time_check (today : ℤ) (df : List TCRow) : Option (List ((ℤ × ℤ) × TCOut)) :=
  optList ((groupKeys df).map (groupAgg today df))

/-- Only the completeness flags of `time_check`, keyed by group. -/
def tcFlags (today : ℤ) (df : List TCRow) : Option (List ((ℤ × ℤ) × Bool)) :=
  (time_check today df).map (List.map (fun p => (p.1, p.2.complete)))

/-! ## Claims -/

/-- C1, counterexample: the claim says a cell strictly greater than 20 comes
out as the cell times 0.75 rounded to one decimal, so the cell 24 would have
to come out as 18; `multiply_matrix` instead produces 22.5, because the
second masked update re-multiplies the already scaled value 18 by 1.25. -/
theorem multiply_matrix_claim_cex :
    multiply_matrix [[24]] = [[45 / 2]] ∧ (20 : ℚ) < 24 ∧
    roundHalfEven1 (24 * (3 / 4)) = 18 ∧ (45 / 2 : ℚ) ≠ 18 := by
  refine ⟨?_, by norm_num, ?_, by norm_num⟩
  · norm_num [multiply_matrix, scaleStep1, scaleStep2, roundHalfEven1, rhe]
  · norm_num [roundHalfEven1, rhe]

/-- C1 (amended): for every cell `v` of the input matrix, `multiply_matrix`
produces `v * 1.25` rounded to one decimal when `v ≤ 20`; `v * 0.75`
rounded to one decimal when `v > 20` and `v * 0.75` is still greater
than 20; and `v * 0.75 * 1.25 = v * 0.9375` rounded to one decimal when
`v > 20` but `v * 0.75 ≤ 20`, because the second mask is evaluated on the
matrix the first update already modified. -/
theorem multiply_matrix_amended (m : List (List ℚ)) :
    multiply_matrix m = m.map (List.map (fun v =>
      if 20 < v then
        if v * (3 / 4) ≤ 20 then roundHalfEven1 (v * (15 / 16))
        else roundHalfEven1 (v * (3 / 4))
      else roundHalfEven1 (v * (5 / 4)))) := by
  have hcell : ∀ v : ℚ, roundHalfEven1 (scaleStep2 (scaleStep1 v)) =
      if 20 < v then
        if v * (3 / 4) ≤ 20 then roundHalfEven1 (v * (15 / 16))
        else roundHalfEven1 (v * (3 / 4))
      else roundHalfEven1 (v * (5 / 4)) := by
    intro v
    unfold scaleStep1 scaleStep2
    by_cases h1 : v > 20
    · rw [if_pos h1, if_pos h1]
      by_cases h2 : v * (3 / 4) ≤ 20
      · rw [if_pos h2, if_pos h2]
        congr 1
        ring
      · rw [if_neg h2, if_neg h2]
    · rw [if_neg h1, if_pos (le_of_not_lt h1), if_neg h1]
  unfold multiply_matrix
  simp only [hcell]

/-- Witness for C1 (amended): the amended rule instantiated at the single
cell 16. -/
theorem multiply_matrix_amended_witness :
    multiply_matrix [[16]] = [[16]].map (List.map (fun v : ℚ =>
      if 20 < v then
        if v * (3 / 4) ≤ 20 then roundHalfEven1 (v * (15 / 16))
        else roundHalfEven1 (v * (3 / 4))
      else roundHalfEven1 (v * (5 / 4)))) :=
  multiply_matrix_amended [[16]]

/-- C3: on a one-row input covering Monday 00:00:00 to Sunday 23:59:59 and
invoked on a Monday, `time_check` returns, for the single group `(1, 1)`,
an aggregate row that still carries the `startDayTime`, `endDayTime` and
`TimeDifference` columns next to the `time_completeness` flag: the function
returns the whole aggregated frame, not the promised boolean series. -/
theorem time_check_returns_aggregate_frame :
    time_check 0 [⟨1, 1, "Monday", 0, "Sunday", 86399⟩] =
      some [((1, 1), ⟨0, 604799, 604799, true⟩)] := by decide

/-- C7, counterexample: invoked on a Friday (day 4 of the epoch week, so
`today % 7 = 4`), the source maps "Monday" to day 0, four days in the past,
although day 7 is also a Monday and only three days away: the mapped date is
not the nearest occurrence of the weekday. -/
theorem weekday_to_date_claim_cex :
    weekday_to_date 4 "Monday" = some 0 ∧ (7 : ℤ) % 7 = 0 ∧
    |(7 : ℤ) - 4| < |(0 : ℤ) - 4| := by decide

/-- C7 (amended): `weekday_to_date` maps a weekday name to the occurrence of
that weekday in the Monday-to-Sunday week containing the invocation date
(the date `d` with `d % 7` the index of the weekday, lying within 0 to 6 days
after the Monday of the current week), which is not always the occurrence
nearest to today. -/
theorem weekday_to_date_amended (today : ℤ) (w : String) (dw : ℕ) (d : ℤ)
    (h1 : days w = some dw) (h2 : weekday_to_date today w = some d) :
    d % 7 = (dw : ℤ) ∧ today - today % 7 ≤ d ∧ d ≤ today - today % 7 + 6 := by
  have hdw : dw ≤ 6 := by
    unfold days at h1
    split_ifs at h1 <;> simp_all <;> omega
  simp only [weekday_to_date, h1, Option.map_some', Option.some.injEq] at h2
  omega

/-- Witness for C7 (amended): today a Friday (day 4), weekday "Monday". -/
theorem weekday_to_date_amended_witness :
    days "Monday" = some 0 ∧ weekday_to_date 4 "Monday" = some 0 ∧
    ((0 : ℤ) % 7 = ((0 : ℕ) : ℤ) ∧ (4 : ℤ) - 4 % 7 ≤ 0 ∧ (0 : ℤ) ≤ 4 - 4 % 7 + 6) :=
  ⟨by decide, by decide, weekday_to_date_amended 4 "Monday" 0 0 (by decide) (by decide)⟩

/-- C10: on an input with zero rows, `get_bus_indexes` returns the empty
list (the mean of the empty column is NaN, modelled `none`, and the
comparison against it selects no row) instead of raising. -/
theorem get_bus_indexes_empty : get_bus_indexes [] = [] := rfl

/-- C9: on a nonempty numeric `bus` column, the returned list holds exactly
the (positional) row identifiers whose value strictly exceeds twice the
column mean, and it is sorted ascending. -/
theorem get_bus_indexes_spec (bus : List ℚ) (h : bus ≠ []) (i : ℕ) :
    (i ∈ get_bus_indexes bus ↔
      i < bus.length ∧ 2 * (bus.sum / bus.length) < bus.getD i 0) ∧
    List.Sorted (· ≤ ·) (get_bus_indexes bus) := by
  have hlen : ¬ bus.length = 0 := by simpa [List.length_eq_zero] using h
  have hm : meanQ bus = some (bus.sum / bus.length) := by simp [meanQ, hlen]
  constructor
  · rw [get_bus_indexes, hm]
    simp only [Option.elim]
    rw [List.mem_insertionSort]
    simp [List.mem_filter, List.mem_range]
  · rw [get_bus_indexes, hm]
    simp only [Option.elim]
    exact List.sorted_insertionSort _ _

/-- Witness for C9: the column `[1, 2, 9]` has mean 4, and index 2 holds
the only value exceeding 8. -/
theorem get_bus_indexes_spec_witness :
    ([(1 : ℚ), 2, 9] ≠ []) ∧
    ((2 ∈ get_bus_indexes [1, 2, 9] ↔
        2 < ([(1 : ℚ), 2, 9]).length ∧
        2 * (([(1 : ℚ), 2, 9]).sum / ([(1 : ℚ), 2, 9]).length) < ([(1 : ℚ), 2, 9]).getD 2 0) ∧
      List.Sorted (· ≤ ·) (get_bus_indexes [1, 2, 9])) :=
  ⟨by simp, get_bus_indexes_spec [1, 2, 9] (by simp) 2⟩

/-- The "low" count of the cut is the count of values below 15. -/
lemma labelCount_low (cars : List ℚ) :
    labelCount cars "low" = (cars.filter (fun v => decide (v < 15))).length := by
  induction cars with
  | nil => rfl
  | cons v l ih =>
    by_cases h1 : v < 15
    · simpa [labelCount, carType, List.filter_cons, h1] using ih
    · by_cases h2 : v < 25 <;>
        simpa [labelCount, carType, List.filter_cons, h1, h2] using ih

/-- The "medium" count of the cut is the count of values in [15, 25). -/
lemma labelCount_med (cars : List ℚ) :
    labelCount cars "medium" = (cars.filter (fun v => decide (15 ≤ v ∧ v < 25))).length := by
  induction cars with
  | nil => rfl
  | cons v l ih =>
    by_cases h1 : v < 15
    · simpa [labelCount, carType, List.filter_cons, h1, not_le.mpr h1] using ih
    · by_cases h2 : v < 25 <;>
        simpa [labelCount, carType, List.filter_cons, h1, h2, not_lt.mp h1] using ih

/-- The "high" count of the cut is the count of values at least 25. -/
lemma labelCount_high (cars : List ℚ) :
    labelCount cars "high" = (cars.filter (fun v => decide (25 ≤ v))).length := by
  induction cars with
  | nil => rfl
  | cons v l ih =>
    by_cases h1 : v < 15
    · have h3 : ¬ 25 ≤ v := not_le.mpr (h1.trans (by norm_num))
      simpa [labelCount, carType, List.filter_cons, h1, h3] using ih
    · by_cases h2 : v < 25
      · simpa [labelCount, carType, List.filter_cons, h1, h2, not_le.mpr h2] using ih
      · simpa [labelCount, carType, List.filter_cons, h1, h2, not_lt.mp h2] using ih

/-- The three buckets partition the rows. -/
lemma filter_buckets_length (cars : List ℚ) :
    (cars.filter (fun v => decide (v < 15))).length +
      (cars.filter (fun v => decide (15 ≤ v ∧ v < 25))).length +
      (cars.filter (fun v => decide (25 ≤ v))).length = cars.length := by
  induction cars with
  | nil => rfl
  | cons v l ih =>
    by_cases h1 : v < 15
    · have h3 : ¬ 25 ≤ v := not_le.mpr (h1.trans (by norm_num))
      simp [List.filter_cons, h1, not_le.mpr h1, h3] at ih ⊢
      omega
    · by_cases h2 : v < 25
      · simp [List.filter_cons, h1, h2, not_lt.mp h1, not_le.mpr h2] at ih ⊢
        omega
      · simp [List.filter_cons, h1, h2, not_lt.mp h1, not_lt.mp h2] at ih ⊢
        omega

/-- Evaluation of `get_type_count` into its alphabetical key order, with the counts
still symbolic. -/
lemma get_type_count_eq (cars : List ℚ) :
    get_type_count cars =
      [("high", labelCount cars "high"), ("low", labelCount cars "low"),
       ("medium", labelCount cars "medium")] := by
  simp [get_type_count, List.insertionSort, List.orderedInsert,
        show pyStrLe "medium" "high" = false from rfl,
        show pyStrLe "low" "high" = false from rfl,
        show pyStrLe "low" "medium" = true from rfl]

/-- C8: every row is counted in exactly one bucket by the rule value < 15
low, 15 ≤ value < 25 medium, 25 ≤ value high (so the counts sum to the row
count and 15 and 25 land in "medium" and "high"), and the result maps the
keys in alphabetical order. -/
theorem get_type_count_spec (cars : List ℚ) :
    get_type_count cars =
      [("high", (cars.filter (fun v => decide (25 ≤ v))).length),
       ("low", (cars.filter (fun v => decide (v < 15))).length),
       ("medium", (cars.filter (fun v => decide (15 ≤ v ∧ v < 25))).length)] ∧
    (cars.filter (fun v => decide (v < 15))).length +
      (cars.filter (fun v => decide (15 ≤ v ∧ v < 25))).length +
      (cars.filter (fun v => decide (25 ≤ v))).length = cars.length ∧
    carType 15 = "medium" ∧ carType 25 = "high" ∧
    List.Chain' (fun a b => pyStrLe a b = true) ((get_type_count cars).map Prod.fst) := by
  refine ⟨?_, filter_buckets_length cars, by norm_num [carType], by norm_num [carType], ?_⟩
  · rw [get_type_count_eq, labelCount_low, labelCount_med, labelCount_high]
  · rw [get_type_count_eq]
    simp only [List.map_cons, List.map_nil, List.chain'_cons, List.chain'_singleton]
    exact ⟨rfl, rfl, trivial⟩

/-- C6, counterexample: `get_type_count` called on a one-column frame with
the single car value 10 returns its counts but leaves the frame of the caller
with a new `car_type` column appended, so not every function leaves its
input unchanged. -/
theorem get_type_count_mutation_cex :
    get_type_count_full [("car", [Val.num 10])] =
      some ([("high", 0), ("low", 1), ("medium", 0)],
            [("car", [Val.num 10]), ("car_type", [Val.txt "low"])]) ∧
    ([("car", [Val.num 10]), ("car_type", [Val.txt "low"])] : DFrame) ≠
      [("car", [Val.num 10])] := by
  constructor
  · norm_num [get_type_count_full, getColumn, colRats, optList, get_type_count,
              labelCount, carType, setColumn]
    decide
  · simp

/-- C6 (amended): `generate_car_matrix`, `get_bus_indexes`, `filter_routes`
and `multiply_matrix` compute pure results, but `get_type_count` (and
likewise `time_check`) modifies its input frame: whenever the input has a
numeric `car` column and no `car_type` column yet, the frame after the call
differs from the frame passed in, because `df[car_type] = pd.cut(...)`
appends a column to the object of the caller. -/
theorem get_type_count_mutates (df : DFrame) (out : List (String × ℕ)) (df2 : DFrame)
    (h1 : get_type_count_full df = some (out, df2))
    (h2 : ∀ p ∈ df, p.1 ≠ "car_type") : df2 ≠ df := by
  simp only [get_type_count_full, Option.bind_eq_some, Option.map_eq_some'] at h1
  obtain ⟨c, hc, cars, hcars, hpair⟩ := h1
  have hdf2 : df2 = setColumn df "car_type" (cars.map (fun q => Val.txt (carType q))) := by
    have h := congrArg Prod.snd hpair
    simpa using h.symm
  have hfind : df.find? (fun p => p.1 == "car_type") = none := by
    rw [List.find?_eq_none]
    intro p hp
    simpa using h2 p hp
  rw [hdf2, setColumn, hfind]
  simp only [Option.isSome_none, Bool.false_eq_true, if_false]
  intro hcontra
  have h := congrArg List.length hcontra
  simp at h

/-- Witness for C6 (amended): the one-column frame with car value 10. -/
theorem get_type_count_mutates_witness :
    ([("car", [Val.num 10]), ("car_type", [Val.txt "low"])] : DFrame) ≠
      [("car", [Val.num 10])] :=
  get_type_count_mutates [("car", [Val.num 10])] [("high", 0), ("low", 1), ("medium", 0)]
    [("car", [Val.num 10]), ("car_type", [Val.txt "low"])]
    (by norm_num [get_type_count_full, getColumn, colRats, optList, get_type_count,
                  labelCount, carType, setColumn]
        decide)
    (by intro p hp
        simp only [List.mem_singleton] at hp
        rw [hp]
        decide)

/-- The diagonal write changes neither the number of rows. -/
lemma zeroDiagFrom_length (s : ℕ) (m : List (List ℚ)) :
    (zeroDiagFrom s m).length = m.length := by
  induction m generalizing s with
  | nil => rfl
  | cons row rest ih => simp [zeroDiagFrom, ih]

/-- Every row of the diagonal write is some original row with one cell set
to 0. -/
lemma zeroDiagFrom_mem (s : ℕ) (m : List (List ℚ)) (row2 : List ℚ)
    (h : row2 ∈ zeroDiagFrom s m) : ∃ j row1, row1 ∈ m ∧ row2 = row1.set j 0 := by
  induction m generalizing s with
  | nil => simp [zeroDiagFrom] at h
  | cons row rest ih =>
    simp only [zeroDiagFrom, List.mem_cons] at h
    rcases h with h | h
    · exact ⟨s, row, List.mem_cons_self _ _, h⟩
    · obtain ⟨j, row1, hm, he⟩ := ih (s + 1) h
      exact ⟨j, row1, List.mem_cons_of_mem _ hm, he⟩

/-- Row `i` of the diagonal write is row `i` of the grid with positional
cell `s + i` set to 0. -/
lemma zeroDiagFrom_getD (s : ℕ) (m : List (List ℚ)) (i : ℕ) (h : i < m.length) :
    (zeroDiagFrom s m).getD i [] = (m.getD i []).set (s + i) 0 := by
  induction m generalizing s i with
  | nil => simp at h
  | cons row rest ih =>
    cases i with
    | zero => simp [zeroDiagFrom]
    | succ i =>
      simp only [zeroDiagFrom, List.getD_cons_succ]
      rw [ih (s + 1) i (by simpa using h)]
      congr 1
      omega

/-- C5, counterexample: an input whose two records share the single `id_1`
value 1 but have the distinct `id_2` values 10 and 20 pivots to a 1-by-2
table, which is not square (the claim promises a square table for every
input). -/
theorem generate_car_matrix_claim_cex :
    generate_car_matrix [⟨1, 10, 5⟩, ⟨1, 20, 6⟩] = some ⟨[1], [10, 20], [[0, 6]]⟩ ∧
    ([1] : List ℤ).length ≠ ([10, 20] : List ℤ).length := by
  constructor
  · norm_num [generate_car_matrix, sortedIds, lookupCar, zeroDiagFrom,
              List.insertionSort, List.orderedInsert, List.dedup]
  · decide

/-- The pivoted grid over arbitrary row and column label lists. -/
def pivotGrid (df : List CarRow) (rows cols : List ℤ) : List (List ℚ) :=
  rows.map (fun r => cols.map (fun c => (lookupCar df r c).getD 0))

/-- After the diagonal write, positional cell (i, i) of the grid is 0. -/
lemma pivotGrid_diag (df : List CarRow) (rows cols : List ℤ) (i : ℕ)
    (hi : i < rows.length) (hic : i < cols.length) :
    ((zeroDiagFrom 0 (pivotGrid df rows cols)).getD i []).getD i 0 = 0 := by
  have hlen : i < (pivotGrid df rows cols).length := by
    simpa [pivotGrid] using hi
  rw [zeroDiagFrom_getD 0 _ i hlen, Nat.zero_add,
      List.getD_eq_getElem _ _ hlen]
  simp only [pivotGrid, List.getElem_map]
  have hlc : i < ((cols.map (fun c => (lookupCar df rows[i] c).getD 0)).set i 0).length := by
    simpa using hic
  rw [List.getD_eq_getElem _ _ hlc]
  exact List.getElem_set_self hlc

/-- After the diagonal write, a cell whose label pair matches no input
record is 0. -/
lemma pivotGrid_absent (df : List CarRow) (rows cols : List ℤ) (i j : ℕ)
    (hi : i < rows.length) (hj : j < cols.length)
    (habs : ∀ r ∈ df, ¬(r.id1 = rows.getD i 0 ∧ r.id2 = cols.getD j 0)) :
    ((zeroDiagFrom 0 (pivotGrid df rows cols)).getD i []).getD j 0 = 0 := by
  by_cases hij : j = i
  · subst hij
    exact pivotGrid_diag df rows cols j (by omega) hj
  · have hlen : i < (pivotGrid df rows cols).length := by
      simpa [pivotGrid] using hi
    rw [zeroDiagFrom_getD 0 _ i hlen, Nat.zero_add,
        List.getD_eq_getElem _ _ hlen]
    simp only [pivotGrid, List.getElem_map]
    have hlc : j < ((cols.map (fun c => (lookupCar df rows[i] c).getD 0)).set i 0).length := by
      simpa using hj
    rw [List.getD_eq_getElem _ _ hlc,
        List.getElem_set_of_ne (fun hh => hij hh.symm), List.getElem_map]
    have hnone : lookupCar df rows[i] cols[j] = none := by
      unfold lookupCar
      rw [List.find?_eq_none.mpr]
      · rfl
      · intro x hx
        have hax := habs x hx
        rw [List.getD_eq_getElem _ _ hi, List.getD_eq_getElem _ _ hj] at hax
        simp only [Bool.and_eq_true, beq_iff_eq]
        tauto
    rw [hnone]
    rfl

/-- C5 (amended): whenever `generate_car_matrix` succeeds and the numbers of
distinct `id_1` and `id_2` values agree, the result is a square table whose
rows are the sorted distinct `id_1` values and whose columns are the sorted
distinct `id_2` values, every positional diagonal cell is 0, and every
(row, col) label combination absent from the input holds 0. -/
theorem generate_car_matrix_amended (df : List CarRow) (M : PivotMatrix)
    (h : generate_car_matrix df = some M) (hsq : M.rows.length = M.cols.length) :
    M.rows = sortedIds (df.map (fun r => r.id1)) ∧
    M.cols = sortedIds (df.map (fun r => r.id2)) ∧
    M.data.length = M.rows.length ∧
    (∀ row ∈ M.data, row.length = M.cols.length) ∧
    (∀ i, i < M.rows.length → (M.data.getD i []).getD i 0 = 0) ∧
    (∀ i j, i < M.rows.length → j < M.cols.length →
      (∀ r ∈ df, ¬(r.id1 = M.rows.getD i 0 ∧ r.id2 = M.cols.getD j 0)) →
      (M.data.getD i []).getD j 0 = 0) := by
  simp only [generate_car_matrix] at h
  split at h
  case isFalse => exact absurd h (by simp)
  split at h
  case isFalse => exact absurd h (by simp)
  case isTrue hnd hle =>
  injection h with h
  subst h
  dsimp only at hsq ⊢
  refine ⟨rfl, rfl, ?_, ?_, ?_, ?_⟩
  · simp [zeroDiagFrom_length]
  · intro row hrow
    obtain ⟨j, row1, hm, he⟩ := zeroDiagFrom_mem 0 _ row hrow
    obtain ⟨r, hr, hrow1⟩ := List.mem_map.mp hm
    subst he
    rw [← hrow1]
    simp
  · intro i hi
    exact pivotGrid_diag df _ _ i hi (by omega)
  · intro i j hi hj habs
    exact pivotGrid_absent df _ _ i j hi hj habs

/-- Witness for C5 (amended): two records with ids 1 and 2 crossed; the
pivot is the square 2-by-2 table with zero diagonal. -/
theorem generate_car_matrix_amended_witness :
    (generate_car_matrix [⟨1, 2, 5⟩, ⟨2, 1, 7⟩] = some ⟨[1, 2], [1, 2], [[0, 5], [7, 0]]⟩) ∧
    (([1, 2] : List ℤ) = sortedIds (([⟨1, 2, 5⟩, ⟨2, 1, 7⟩] : List CarRow).map (fun r => r.id1)) ∧
     ([1, 2] : List ℤ) = sortedIds (([⟨1, 2, 5⟩, ⟨2, 1, 7⟩] : List CarRow).map (fun r => r.id2)) ∧
     ([[0, 5], [7, 0]] : List (List ℚ)).length = ([1, 2] : List ℤ).length ∧
     (∀ row ∈ ([[0, 5], [7, 0]] : List (List ℚ)), row.length = ([1, 2] : List ℤ).length) ∧
     (∀ i, i < ([1, 2] : List ℤ).length →
       ((([[0, 5], [7, 0]] : List (List ℚ)).getD i []).getD i 0 = 0)) ∧
     (∀ i j, i < ([1, 2] : List ℤ).length → j < ([1, 2] : List ℤ).length →
       (∀ r ∈ ([⟨1, 2, 5⟩, ⟨2, 1, 7⟩] : List CarRow),
         ¬(r.id1 = ([1, 2] : List ℤ).getD i 0 ∧ r.id2 = ([1, 2] : List ℤ).getD j 0)) →
       (([[0, 5], [7, 0]] : List (List ℚ)).getD i []).getD j 0 = 0)) :=
  ⟨by norm_num [generate_car_matrix, sortedIds, lookupCar, zeroDiagFrom,
                List.insertionSort, List.orderedInsert, List.dedup],
   generate_car_matrix_amended [⟨1, 2, 5⟩, ⟨2, 1, 7⟩] ⟨[1, 2], [1, 2], [[0, 5], [7, 0]]⟩
     (by norm_num [generate_car_matrix, sortedIds, lookupCar, zeroDiagFrom,
                   List.insertionSort, List.orderedInsert, List.dedup]) rfl⟩

/-- Sequencing a mapped list: each member of the result is the image of a
member of the input. -/
lemma optList_map_some {α β : Type} {f : α → Option β} {l : List α}
    {out : List β} {b : β}
    (h : optList (l.map f) = some out) (hb : b ∈ out) : ∃ a ∈ l, f a = some b := by
  induction l generalizing out with
  | nil =>
    simp only [List.map_nil, optList, Option.some.injEq] at h
    subst h
    simp at hb
  | cons a l ih =>
    rw [List.map_cons] at h
    cases hfa : f a with
    | none => rw [hfa] at h; simp [optList] at h
    | some x =>
      rw [hfa] at h
      simp only [optList, Option.map_eq_some'] at h
      obtain ⟨rest, hrest, hout⟩ := h
      subst hout
      rcases List.mem_cons.mp hb with hb | hb
      · exact ⟨a, List.mem_cons_self a l, by rw [hfa, hb]⟩
      · obtain ⟨a2, ha2, hfa2⟩ := ih hrest hb
        exact ⟨a2, List.mem_cons_of_mem _ ha2, hfa2⟩

/-- C2: whenever `time_check` succeeds, the flag it reports for a group is
true exactly when the duration from the minimum combined start of the group
timestamp to its maximum combined end timestamp is 6 days, 23 hours, 59
minutes and 59 seconds; any shorter or longer span is flagged false. -/
theorem time_check_complete_iff (today : ℤ) (df : List TCRow)
    (out : List ((ℤ × ℤ) × TCOut)) (k : ℤ × ℤ) (o : TCOut)
    (h1 : time_check today df = some out) (h2 : (k, o) ∈ out) :
    (∃ ss, optList ((groupRows df k).map (rowStart today)) = some ss ∧
      listMin ss = some o.startDayTime) ∧
    (∃ es, optList ((groupRows df k).map (rowEnd today)) = some es ∧
      listMax es = some o.endDayTime) ∧
    (o.complete = true ↔
      o.endDayTime - o.startDayTime = 6 * 86400 + 23 * 3600 + 59 * 60 + 59) := by
  unfold time_check at h1
  obtain ⟨kk, hkk, hagg⟩ := optList_map_some h1 h2
  unfold groupAgg at hagg
  rw [Option.bind_eq_some] at hagg
  obtain ⟨ss, hss, hagg⟩ := hagg
  rw [Option.bind_eq_some] at hagg
  obtain ⟨es, hes, hagg⟩ := hagg
  rw [Option.bind_eq_some] at hagg
  obtain ⟨mn, hmn, hagg⟩ := hagg
  rw [Option.map_eq_some'] at hagg
  obtain ⟨mx, hmx, heq⟩ := hagg
  injection heq with hk ho
  subst hk
  subst ho
  exact ⟨⟨ss, hss, hmn⟩, ⟨es, hes, hmx⟩, by simp⟩

/-- Witness for C2: one record covering Monday 00:00:00 through Sunday
23:59:59, checked on a Thursday (day 3): the single group is flagged
complete. -/
theorem time_check_complete_iff_witness :
    (time_check 3 [⟨1, 1, "Monday", 0, "Sunday", 86399⟩] =
      some [((1, 1), ⟨0, 604799, 604799, true⟩)]) ∧
    ((∃ ss, optList ((groupRows [⟨1, 1, "Monday", 0, "Sunday", 86399⟩] (1, 1)).map
        (rowStart 3)) = some ss ∧ listMin ss = some (0 : ℤ)) ∧
     (∃ es, optList ((groupRows [⟨1, 1, "Monday", 0, "Sunday", 86399⟩] (1, 1)).map
        (rowEnd 3)) = some es ∧ listMax es = some (604799 : ℤ)) ∧
     (true = true ↔ (604799 : ℤ) - 0 = 6 * 86400 + 23 * 3600 + 59 * 60 + 59)) :=
  ⟨by decide,
   time_check_complete_iff 3 [⟨1, 1, "Monday", 0, "Sunday", 86399⟩]
     [((1, 1), ⟨0, 604799, 604799, true⟩)] (1, 1) ⟨0, 604799, 604799, true⟩
     (by decide) (by decide)⟩

/-- Start timestamp of a record without the anchoring to the invocation
week: the weekday index itself serves as the date. -/
def rowStartBase (r : TCRow) : Option ℤ :=
  (days r.startDay).map (fun dw : ℕ => (dw : ℤ) * 86400 + (r.startTime : ℤ))

/-- End timestamp of a record without the anchoring to the invocation week. -/
def rowEndBase (r : TCRow) : Option ℤ :=
  (days r.endDay).map (fun dw : ℕ => (dw : ℤ) * 86400 + (r.endTime : ℤ))

/-- The number of seconds by which anchoring to the week of `today` shifts
every combined timestamp of a run. -/
def anchorShift (today : ℤ) : ℤ := (today - today % 7) * 86400

/-- Anchoring shifts every start timestamp by the same amount. -/
lemma rowStart_shift (t : ℤ) (r : TCRow) :
    rowStart t r = (rowStartBase r).map (fun b => anchorShift t + b) := by
  unfold rowStart weekday_to_date rowStartBase anchorShift
  cases days r.startDay with
  | none => rfl
  | some dw =>
    simp only [Option.map_some', Option.some.injEq]
    omega

/-- Anchoring shifts every end timestamp by the same amount. -/
lemma rowEnd_shift (t : ℤ) (r : TCRow) :
    rowEnd t r = (rowEndBase r).map (fun b => anchorShift t + b) := by
  unfold rowEnd weekday_to_date rowEndBase anchorShift
  cases days r.endDay with
  | none => rfl
  | some dw =>
    simp only [Option.map_some', Option.some.injEq]
    omega

/-- On an epoch Monday the anchoring is the identity. -/
lemma rowStart_zero (r : TCRow) : rowStart 0 r = rowStartBase r := by
  unfold rowStart weekday_to_date rowStartBase
  cases days r.startDay with
  | none => rfl
  | some dw =>
    simp only [Option.map_some', Option.some.injEq]
    omega

/-- On an epoch Monday the anchoring is the identity. -/
lemma rowEnd_zero (r : TCRow) : rowEnd 0 r = rowEndBase r := by
  unfold rowEnd weekday_to_date rowEndBase
  cases days r.endDay with
  | none => rfl
  | some dw =>
    simp only [Option.map_some', Option.some.injEq]
    omega

/-- Sequencing commutes with a uniform shift of all values. -/
lemma optList_shift (c : ℤ) (l : List (Option ℤ)) :
    optList (l.map (Option.map (fun b => c + b))) =
      (optList l).map (List.map (fun b => c + b)) := by
  induction l with
  | nil => rfl
  | cons a l ih =>
    cases a with
    | none => rfl
    | some x =>
      simp only [List.map_cons, Option.map_some', optList, ih, Option.map_map]
      cases optList l with
      | none => rfl
      | some ll => rfl

/-- A running minimum commutes with a uniform shift. -/
lemma foldl_min_shift (c : ℤ) (l : List ℤ) (a : ℤ) :
    (l.map (fun b => c + b)).foldl min (c + a) = c + l.foldl min a := by
  induction l generalizing a with
  | nil => rfl
  | cons x l ih =>
    simp only [List.map_cons, List.foldl_cons]
    rw [show min (c + a) (c + x) = c + min a x from min_add_add_left c a x]
    exact ih (min a x)

/-- A running maximum commutes with a uniform shift. -/
lemma foldl_max_shift (c : ℤ) (l : List ℤ) (a : ℤ) :
    (l.map (fun b => c + b)).foldl max (c + a) = c + l.foldl max a := by
  induction l generalizing a with
  | nil => rfl
  | cons x l ih =>
    simp only [List.map_cons, List.foldl_cons]
    rw [show max (c + a) (c + x) = c + max a x from max_add_add_left c a x]
    exact ih (max a x)

/-- The series minimum commutes with a uniform shift. -/
lemma listMin_shift (c : ℤ) (l : List ℤ) :
    listMin (l.map (fun b => c + b)) = (listMin l).map (fun b => c + b) := by
  cases l with
  | nil => rfl
  | cons a l =>
    simp only [List.map_cons, listMin, Option.map_some', Option.some.injEq]
    exact foldl_min_shift c l a

/-- The series maximum commutes with a uniform shift. -/
lemma listMax_shift (c : ℤ) (l : List ℤ) :
    listMax (l.map (fun b => c + b)) = (listMax l).map (fun b => c + b) := by
  cases l with
  | nil => rfl
  | cons a l =>
    simp only [List.map_cons, listMax, Option.map_some', Option.some.injEq]
    exact foldl_max_shift c l a

/-- The key and flag of the aggregate of a group do not depend on the invocation
date: the anchoring shifts the minimum start and the maximum end by the same
amount, so the difference compared against the one-week span is unchanged. -/
lemma groupAgg_flags (t : ℤ) (df : List TCRow) (k : ℤ × ℤ) :
    (groupAgg t df k).map (fun p => (p.1, p.2.complete)) =
      (groupAgg 0 df k).map (fun p => (p.1, p.2.complete)) := by
  have hs : (groupRows df k).map (rowStart t) =
      ((groupRows df k).map rowStartBase).map (Option.map (fun b => anchorShift t + b)) := by
    rw [List.map_map]
    exact List.map_congr_left (fun r _ => rowStart_shift t r)
  have he : (groupRows df k).map (rowEnd t) =
      ((groupRows df k).map rowEndBase).map (Option.map (fun b => anchorShift t + b)) := by
    rw [List.map_map]
    exact List.map_congr_left (fun r _ => rowEnd_shift t r)
  have hs0 : (groupRows df k).map (rowStart 0) = (groupRows df k).map rowStartBase :=
    List.map_congr_left (fun r _ => rowStart_zero r)
  have he0 : (groupRows df k).map (rowEnd 0) = (groupRows df k).map rowEndBase :=
    List.map_congr_left (fun r _ => rowEnd_zero r)
  unfold groupAgg
  rw [hs, he, hs0, he0, optList_shift, optList_shift]
  cases hbs : optList ((groupRows df k).map rowStartBase) with
  | none => rfl
  | some ls =>
    cases hbe : optList ((groupRows df k).map rowEndBase) with
    | none => rfl
    | some le =>
      simp only [Option.map_some', Option.some_bind, listMin_shift, listMax_shift]
      cases hmn : listMin ls with
      | none => rfl
      | some mn =>
        simp only [Option.map_some', Option.some_bind]
        cases hmx : listMax le with
        | none => rfl
        | some mx =>
          simp [add_sub_add_left_eq_sub]

/-- Flag projections of two sequenced maps agree when they agree pointwise. -/
lemma optList_map_proj {α β γ : Type} (g : β → γ) (f1 f2 : α → Option β)
    (hp : ∀ a, (f1 a).map g = (f2 a).map g) (l : List α) :
    (optList (l.map f1)).map (List.map g) = (optList (l.map f2)).map (List.map g) := by
  induction l with
  | nil => rfl
  | cons a l ih =>
    have ha := hp a
    cases hf1 : f1 a with
    | none =>
      rw [hf1] at ha
      cases hf2 : f2 a with
      | none => simp only [List.map_cons, hf1, hf2]; rfl
      | some y => rw [hf2] at ha; simp at ha
    | some x =>
      rw [hf1] at ha
      cases hf2 : f2 a with
      | none => rw [hf2] at ha; simp at ha
      | some y =>
        rw [hf2] at ha
        simp only [Option.map_some', Option.some.injEq] at ha
        simp only [List.map_cons, hf1, hf2, optList]
        cases h1 : optList (l.map f1) with
        | none =>
          cases h2 : optList (l.map f2) with
          | none => rfl
          | some l2 => rw [h1, h2] at ih; simp at ih
        | some l1 =>
          cases h2 : optList (l.map f2) with
          | none => rw [h1, h2] at ih; simp at ih
          | some l2 =>
            rw [h1, h2] at ih
            simp only [Option.map_some', Option.some.injEq] at ih
            simp only [Option.map_some', Option.some.injEq, List.map_cons]
            rw [ha, ih]

/-- The completeness flags do not depend on the invocation date. -/
lemma tcFlags_base (t : ℤ) (df : List TCRow) : tcFlags t df = tcFlags 0 df := by
  unfold tcFlags time_check
  exact optList_map_proj (fun p => (p.1, p.2.complete)) (groupAgg t df) (groupAgg 0 df)
    (fun k => groupAgg_flags t df k) (groupKeys df)

/-- C4, counterexample: there is no fixed input on which `time_check` run on
two different invocation dates yields different completeness results: the
weekday anchoring shifts all timestamps of one run by a common number of
days, which cancels in the duration of every group. -/
theorem time_check_claim_cex :
    ¬ ∃ (df : List TCRow) (t1 t2 : ℤ) (o1 o2 : List ((ℤ × ℤ) × Bool)),
      tcFlags t1 df = some o1 ∧ tcFlags t2 df = some o2 ∧ o1 ≠ o2 := by
  rintro ⟨df, t1, t2, o1, o2, h1, h2, hne⟩
  rw [tcFlags_base] at h1 h2
  rw [h1] at h2
  exact hne (Option.some.inj h2)

/-- C4 (amended): for every fixed input, running `time_check` on any two
invocation dates yields the same completeness flags for the same groups;
the result cannot change with the date on which it runs. -/
theorem time_check_invocation_invariant (df : List TCRow) (t1 t2 : ℤ) :
    tcFlags t1 df = tcFlags t2 df :=
  (tcFlags_base t1 df).trans (tcFlags_base t2 df).symm

/-- Witness for C4 (amended): the Monday-to-Sunday record checked on a
Tuesday and on the Monday of the following week. -/
theorem time_check_invocation_invariant_witness :
    tcFlags 1 [⟨1, 1, "Monday", 0, "Sunday", 86399⟩] =
      tcFlags 8 [⟨1, 1, "Monday", 0, "Sunday", 86399⟩] :=
  time_check_invocation_invariant [⟨1, 1, "Monday", 0, "Sunday", 86399⟩] 1 8

/-- Witness for C8: the bucket spec instantiated at the column 14, 15, 25,
which exercises both boundaries. -/
theorem get_type_count_spec_witness :
    get_type_count [(14 : ℚ), 15, 25] =
      [("high", (([(14 : ℚ), 15, 25]).filter (fun v => decide (25 ≤ v))).length),
       ("low", (([(14 : ℚ), 15, 25]).filter (fun v => decide (v < 15))).length),
       ("medium", (([(14 : ℚ), 15, 25]).filter (fun v => decide (15 ≤ v ∧ v < 25))).length)] ∧
    (([(14 : ℚ), 15, 25]).filter (fun v => decide (v < 15))).length +
      (([(14 : ℚ), 15, 25]).filter (fun v => decide (15 ≤ v ∧ v < 25))).length +
      (([(14 : ℚ), 15, 25]).filter (fun v => decide (25 ≤ v))).length =
        ([(14 : ℚ), 15, 25]).length ∧
    carType 15 = "medium" ∧ carType 25 = "high" ∧
    List.Chain' (fun a b => pyStrLe a b = true)
      ((get_type_count [(14 : ℚ), 15, 25]).map Prod.fst) :=
  get_type_count_spec [14, 15, 25]

end Task1
